import Mathlib

/-!
Shallow embedding of the range-lookup engine of the ip2location repository
(`src/api/src/lib/database.ts`), together with theorems checking the
natural-language specification against it.

Strings are modelled by Lean `String` (a wrapper around `List Char`);
SQLite TEXT comparison (memcmp on UTF-8 bytes) is modelled by the
lexicographic order on `List Char`, which agrees with byte order because
UTF-8 preserves codepoint order.  JavaScript numbers appear in the IPv4
path only through the 32-bit signed shift `<<` and exact small-integer
addition, modelled on `Int`; `BigInt` values are modelled by `Nat`.
-/

namespace IP2Location

/-! ## String utilities (JavaScript `split`, `padStart`, `Number`, `BigInt`) -/

/-- Split a character list at every occurrence of the single character `c`,
modelling JavaScript `String.prototype.split` with a one-character separator:
`"a.b".split('.') = ["a","b"]`, `"".split('.') = [""]`. -/
def splitChar (c : Char) : List Char → List (List Char)
  | [] => [[]]
  | x :: xs =>
    if x = c then [] :: splitChar c xs
    else
      match splitChar c xs with
      | [] => [[x]]
      | h :: t => (x :: h) :: t

/-- Index of the leftmost occurrence of `sep` in `s`, if any. -/
def findSubIdx (sep s : List Char) : Option Nat :=
  (List.range (s.length + 1)).find? fun i => (s.drop i).take sep.length == sep

/-- Fuel-indexed worker for `splitSub`; each step consumes at least one
character of `s`, so fuel `s.length` always suffices. -/
def splitSubAux (sep : List Char) : Nat → List Char → List (List Char)
  | 0, s => [s]
  | fuel + 1, s =>
    match findSubIdx sep s with
    | none => [s]
    | some i => s.take i :: splitSubAux sep fuel (s.drop (i + sep.length))

/-- Split at every occurrence of the (nonempty) separator `sep`, leftmost
first, modelling JavaScript `split` with a multi-character separator:
`"1::2::3".split("::") = ["1","2","3"]`, `"::".split("::") = ["",""]`. -/
def splitSub (sep s : List Char) : List (List Char) :=
  splitSubAux sep s.length s

/-- JavaScript `padStart(width, fill)`: strings already at least `width`
long are returned unchanged. -/
def padStartList (width : Nat) (fill : Char) (s : List Char) : List Char :=
  List.replicate (width - s.length) fill ++ s

/-- `padStart(39, '0')` on a `String`, as used for canonical keys. -/
def padStart39 (s : String) : String :=
  ⟨padStartList 39 '0' s.data⟩

/-- JavaScript `Number` on an all-decimal-digit string (the only shape it is
applied to in the source, because the IPv4 regex guards it). -/
def parseDigits (p : List Char) : Nat :=
  p.foldl (fun acc c => acc * 10 + (c.toNat - 48)) 0

/-- Hexadecimal digit test, `[0-9a-fA-F]`. -/
def isHexChar (c : Char) : Bool :=
  c.isDigit || ('a' ≤ c && c ≤ 'f') || ('A' ≤ c && c ≤ 'F')

/-- Value of a hexadecimal digit. -/
def hexDigitVal (c : Char) : Nat :=
  if c.isDigit then c.toNat - 48
  else if 'a' ≤ c && c ≤ 'f' then c.toNat - 87
  else if 'A' ≤ c && c ≤ 'F' then c.toNat - 55
  else 0

/-- Value of an all-hex-digit string read in base 16. -/
def hexVal (p : List Char) : Nat :=
  p.foldl (fun acc c => acc * 16 + hexDigitVal c) 0

/-- Decidable substring containment, modelling JavaScript
`String.prototype.includes`. -/
def containsSubstr (hay needle : List Char) : Bool :=
  (List.range (hay.length + 1)).any fun i => (hay.drop i).take needle.length == needle

/-! ## JavaScript 32-bit signed shift -/

/-- Reinterpret `n mod 2^32` as a signed 32-bit integer (`ToInt32`). -/
def toInt32 (n : Nat) : Int :=
  if n % 2 ^ 32 < 2 ^ 31 then ((n % 2 ^ 32 : Nat) : Int)
  else ((n % 2 ^ 32 : Nat) : Int) - 2 ^ 32

/-- JavaScript `a << k` for a non-negative integer `a`: shift modulo 2^32,
result reinterpreted as signed 32-bit. -/
def jsShl (a k : Nat) : Int :=
  toInt32 (a * 2 ^ k)

/-! ## Thrown errors -/

/-- The exceptions that can escape `ipToPaddedDecimal` / `lookupIP`:
the two explicit `throw new Error(...)` sites of `database.ts`, the
`SyntaxError` thrown by `BigInt('0x' + part)` on a non-hexadecimal group,
and the `RangeError` thrown by `Array(n)` for negative `n` in
`normalizeIPv6` when `::` expansion sees more than 8 groups. -/
inductive JsError where
  | invalidIPv4 : JsError
  | invalidFormat : JsError
  | bigIntSyntax : String → JsError
  | rangeError : JsError
deriving DecidableEq, Repr

/-- The `message` property of the thrown error object. -/
def JsError.message : JsError → String
  | .invalidIPv4 => "Invalid IPv4 address"
  | .invalidFormat => "Invalid IP address format"
  | .bigIntSyntax arg => "Cannot convert " ++ arg ++ " to a BigInt"
  | .rangeError => "Invalid array length"

/-- The HTTP handlers of `entrypoint.sh` classify a thrown error as an
invalid-address rejection exactly when its message contains the substring
`'Invalid IP address'`. -/
def handlerClassifiesInvalid (e : JsError) : Bool :=
  containsSubstr e.message.data "Invalid IP address".data

/-! ## AddressCodec (`isIPv4`, `isIPv6`, `normalizeIPv6`, `ipv6ToDecimal`,
`ipToPaddedDecimal` from `database.ts`) -/

/-- `isIPv4` from the source: the regex `^(\d{1,3}\.){3}\d{1,3}$`
(equivalently: splitting on `'.'` yields exactly four parts of 1 to 3
decimal digits) followed by the numeric range check on each octet. -/
def isIPv4 (ip : String) : Bool :=
  let parts := splitChar '.' ip.data
  let regexOk :=
    parts.length == 4 &&
      parts.all fun p => decide (1 ≤ p.length) && decide (p.length ≤ 3) && p.all Char.isDigit
  -- `part >= 0` from the source is vacuous on `Nat`
  regexOk && (parts.length == 4 && parts.all fun p => decide (parseDigits p ≤ 255))

/-- `isIPv6` from the source: the regex
`^([0-9a-fA-F]{1,4}:){7}[0-9a-fA-F]{1,4}$|^::1$|^::$` (the first
alternative is equivalent to: splitting on `':'` yields exactly eight
parts of 1 to 4 hex digits), or — the permissive escape hatch — the string
contains a colon at all. -/
def isIPv6 (ip : String) : Bool :=
  let groups := splitChar ':' ip.data
  let fullForm :=
    groups.length == 8 &&
      groups.all fun g => decide (1 ≤ g.length) && decide (g.length ≤ 4) && g.all isHexChar
  (fullForm || ip == "::1" || ip == "::") || ip.data.contains ':'

/-- `normalizeIPv6` from the source: expand one `::` (extra `::`
occurrences beyond the first two fields of the split are silently
dropped, as with JavaScript `split`), or pad each group to 4 characters.
`Array(missingZeros)` throws a `RangeError` when `missingZeros` is
negative, i.e. when left and right of `::` already hold more than 8
groups. -/
def normalizeIPv6 (ip : String) : Except JsError String :=
  if (findSubIdx "::".data ip.data).isSome then
    let parts := splitSub "::".data ip.data
    let leftParts :=
      match parts.head? with
      | some h => if h.isEmpty then [] else splitChar ':' h
      | none => []
    let rightParts :=
      match parts[1]? with
      | some h => if h.isEmpty then [] else splitChar ':' h
      | none => []
    if 8 < leftParts.length + rightParts.length then
      .error .rangeError
    else
      let zeros := List.replicate (8 - leftParts.length - rightParts.length) "0000".data
      .ok ⟨List.intercalate [':'] (leftParts ++ zeros ++ rightParts)⟩
  else
    .ok ⟨List.intercalate [':'] ((splitChar ':' ip.data).map (padStartList 4 '0'))⟩

/-- `BigInt('0x' + part)`: succeeds on a nonempty all-hex string, else
throws a `SyntaxError` naming the offending literal.  (The surrounding
whitespace trimming JavaScript would also perform is not modelled; no
group in any statement below contains whitespace.) -/
def hexGroupToNat (p : List Char) : Except JsError Nat :=
  if !p.isEmpty && p.all isHexChar then .ok (hexVal p)
  else .error (.bigIntSyntax ⟨'0' :: 'x' :: p⟩)

/-- `ipv6ToDecimal` from the source: the two explicit fast paths, then
normalization and the base-65536 fold over the groups. -/
def ipv6ToDecimal (ip : String) : Except JsError Nat :=
  if ip == "::1" then .ok 281470681743359
  else if ip == "::" then .ok 0
  else do
    let normalized ← normalizeIPv6 ip
    (splitChar ':' normalized.data).foldlM
      (fun result part => do
        let v ← hexGroupToNat part
        pure (result * 65536 + v))
      0

/-- `ipToPaddedDecimal` from the source.  The IPv4 branch recomputes the
split, re-checks length and octet range (dead after `isIPv4`, kept
faithfully), and combines the octets with JavaScript's 32-bit signed
`<<`; the IPv6 branch converts via `ipv6ToDecimal`.  Either result is
rendered in decimal and left-padded with zeros to width 39. -/
def ipToPaddedDecimal (ip : String) : Except JsError String :=
  if isIPv4 ip then
    let parts := (splitChar '.' ip.data).map parseDigits
    -- `part < 0` from the source is vacuous on `Nat`
    if parts.length != 4 || parts.any fun part => decide (255 < part) then
      .error .invalidIPv4
    else
      match parts with
      | [a, b, c, d] =>
        .ok (padStart39 (Int.repr (jsShl a 24 + jsShl b 16 + jsShl c 8 + (d : Int))))
      | _ => .error .invalidIPv4
  else if isIPv6 ip then
    match ipv6ToDecimal ip with
    | .ok decimal => .ok (padStart39 (Nat.repr decimal))
    | .error e => .error e
  else
    .error .invalidFormat

/-! ## RangeStore and RangeLookupEngine (`lookupIP`, `lookupIPs`) -/

/-- The public result shape (`IPGeolocationResult` in `database.ts`).
JavaScript numbers in `latitude`/`longitude` are only ever copied from a
row to a result, so they are carried as opaque `Int` values here. -/
structure IPGeolocationResult where
  ip_from_dec : String
  ip_to_dec : String
  country_code : Option String
  country_name : Option String
  region_name : Option String
  city_name : Option String
  latitude : Option Int
  longitude : Option Int
  zip_code : Option String
  time_zone : Option String
deriving DecidableEq, Repr

/-- One row of the `ip2location_db11_ipv6` table: the padded 39-digit
text keys the SQL compares on, plus the columns projected into the
result. -/
structure GeoRow where
  ip_from_padded : String
  ip_to_padded : String
  ip_from_dec : String
  ip_to_dec : String
  country_code : Option String
  country_name : Option String
  region_name : Option String
  city_name : Option String
  latitude : Option Int
  longitude : Option Int
  zip_code : Option String
  time_zone : Option String
deriving DecidableEq, Repr

/-- The row-to-result projection performed by `lookupIP` after a match. -/
def toResult (row : GeoRow) : IPGeolocationResult :=
  { ip_from_dec := row.ip_from_dec
    ip_to_dec := row.ip_to_dec
    country_code := row.country_code
    country_name := row.country_name
    region_name := row.region_name
    city_name := row.city_name
    latitude := row.latitude
    longitude := row.longitude
    zip_code := row.zip_code
    time_zone := row.time_zone }

/-- The `cand` CTE of the lookup SQL: among the rows with
`ip_from_padded <= key` (TEXT comparison, i.e. lexicographic on the
character lists), the one with the greatest `ip_from_padded`
(`ORDER BY ip_from_padded DESC LIMIT 1`); `none` when no row qualifies. -/
def predRow (key : String) : List GeoRow → Option GeoRow
  | [] => none
  | row :: rest =>
    if row.ip_from_padded.data ≤ key.data then
      match predRow key rest with
      | none => some row
      | some b =>
        if b.ip_from_padded.data < row.ip_from_padded.data then some row else some b
    else predRow key rest

/-- `lookupIP` from the source, over an in-memory model of the table:
encode the address, take the predecessor row, and keep it only when
`ip_to_padded >= key`; `null` (here `none`) when the SQL returns no row.
The `catch` block rethrows, so encoding errors escape unchanged. -/
def lookupIP (store : List GeoRow) (ip : String) :
    Except JsError (Option IPGeolocationResult) :=
  match ipToPaddedDecimal ip with
  | .error e => .error e
  | .ok paddedDecimal =>
    match predRow paddedDecimal store with
    | none => .ok none
    | some cand =>
      if paddedDecimal.data ≤ cand.ip_to_padded.data then .ok (some (toResult cand))
      else .ok none

/-- `Promise.allSettled` + the `fulfilled`/`rejected` mapping of
`lookupIPs`: a rejected per-item promise becomes `null`. -/
def settleNull (r : Except JsError (Option IPGeolocationResult)) :
    Option IPGeolocationResult :=
  match r with
  | .ok v => v
  | .error _ => none

/-- `lookupIPs` from the source: every address is looked up
independently and per-item rejections are mapped to `null`. -/
def lookupIPs (store : List GeoRow) (ips : List String) :
    List (Option IPGeolocationResult) :=
  ips.map fun ip => settleNull (lookupIP store ip)

/-! ## The spec's value function and a sample store -/

/-- Modelled from the spec, for comparison with the source: the integer
value of an IPv4 dotted quad, `a·2^24 + b·2^16 + c·2^8 + d` (§4.1). -/
def specIPv4Value (a b c d : Nat) : Nat :=
  a * 2 ^ 24 + b * 2 ^ 16 + c * 2 ^ 8 + d

/-- A store holding the single range `[134744064, 134744319]` of the
spec's containment example (§8), which contains `8.8.8.8 = 134744072`. -/
def googleRow : GeoRow :=
  { ip_from_padded := padStart39 (Nat.repr 134744064)
    ip_to_padded := padStart39 (Nat.repr 134744319)
    ip_from_dec := Nat.repr 134744064
    ip_to_dec := Nat.repr 134744319
    country_code := some "US"
    country_name := some "United States of America"
    region_name := some "California"
    city_name := some "Mountain View"
    latitude := some 37
    longitude := some (-122)
    zip_code := some "94043"
    time_zone := some "-07:00" }

/-- The one-range sample store. -/
def sampleStore : List GeoRow := [googleRow]

deriving instance DecidableEq for Except

/-! ## Predecessor-query characterization -/

/-- When the `cand` CTE is empty, no row's `ip_from_padded` is at most
the key. -/
theorem predRow_eq_none {key : String} {s : List GeoRow} (h : predRow key s = none) :
    ∀ r ∈ s, ¬ r.ip_from_padded.data ≤ key.data := by
  induction s with
  | nil => intro r hr; cases hr
  | cons row rest ih =>
    intro r hr
    rw [predRow] at h
    by_cases hle : row.ip_from_padded.data ≤ key.data
    · rw [if_pos hle] at h
      cases hpr : predRow key rest with
      | none => rw [hpr] at h; exact absurd h (by simp)
      | some b =>
        simp only [hpr] at h
        by_cases hlt : b.ip_from_padded.data < row.ip_from_padded.data
        · rw [if_pos hlt] at h; exact absurd h (by simp)
        · rw [if_neg hlt] at h; exact absurd h (by simp)
    · rw [if_neg hle] at h
      rcases List.mem_cons.mp hr with rfl | hr'
      · exact hle
      · exact ih h r hr'

/-- When the `cand` CTE selects a row, it is a stored row whose
`ip_from_padded` is at most the key and is the greatest such
`ip_from_padded` in the store. -/
theorem predRow_eq_some {key : String} {s : List GeoRow} {r : GeoRow}
    (h : predRow key s = some r) :
    r ∈ s ∧ r.ip_from_padded.data ≤ key.data ∧
      ∀ r' ∈ s, r'.ip_from_padded.data ≤ key.data →
        r'.ip_from_padded.data ≤ r.ip_from_padded.data := by
  induction s generalizing r with
  | nil => rw [predRow] at h; exact absurd h (by simp)
  | cons row rest ih =>
    rw [predRow] at h
    by_cases hle : row.ip_from_padded.data ≤ key.data
    · rw [if_pos hle] at h
      cases hpr : predRow key rest with
      | none =>
        rw [hpr] at h
        injection h with h
        subst h
        refine ⟨List.mem_cons_self _ _, hle, ?_⟩
        intro r' hr' hle'
        rcases List.mem_cons.mp hr' with rfl | hr''
        · exact le_refl _
        · exact absurd hle' (predRow_eq_none hpr r' hr'')
      | some b =>
        simp only [hpr] at h
        obtain ⟨hbMem, hbLe, hbMax⟩ := ih hpr
        by_cases hlt : b.ip_from_padded.data < row.ip_from_padded.data
        · rw [if_pos hlt] at h
          injection h with h
          subst h
          refine ⟨List.mem_cons_self _ _, hle, ?_⟩
          intro r' hr' hle'
          rcases List.mem_cons.mp hr' with rfl | hr''
          · exact le_refl _
          · exact le_trans (hbMax r' hr'' hle') (le_of_lt hlt)
        · rw [if_neg hlt] at h
          injection h with h
          subst h
          refine ⟨List.mem_cons_of_mem _ hbMem, hbLe, ?_⟩
          intro r' hr' hle'
          rcases List.mem_cons.mp hr' with rfl | hr''
          · exact not_lt.mp hlt
          · exact hbMax r' hr'' hle'
    · rw [if_neg hle] at h
      obtain ⟨hbMem, hbLe, hbMax⟩ := ih h
      refine ⟨List.mem_cons_of_mem _ hbMem, hbLe, ?_⟩
      intro r' hr' hle'
      rcases List.mem_cons.mp hr' with rfl | hr''
      · exact absurd hle' hle
      · exact hbMax r' hr'' hle'

/-- The claim C1 statement for one store, address and canonical key:
an empty predecessor query means no range starts at or below the key and
the lookup reports no match; a selected candidate is the stored range of
greatest start not above the key, the lookup returns its attributes
exactly when its inclusive end is at least the key, and reports no match
when the candidate ends strictly below the key. -/
def PredecessorContainmentSpec (store : List GeoRow) (ip key : String) : Prop :=
  (predRow key store = none →
    (∀ r ∈ store, ¬ r.ip_from_padded.data ≤ key.data) ∧
      lookupIP store ip = .ok none) ∧
  ∀ cand, predRow key store = some cand →
    cand ∈ store ∧ cand.ip_from_padded.data ≤ key.data ∧
      (∀ r ∈ store, r.ip_from_padded.data ≤ key.data →
        r.ip_from_padded.data ≤ cand.ip_from_padded.data) ∧
      (key.data ≤ cand.ip_to_padded.data →
        lookupIP store ip = .ok (some (toResult cand))) ∧
      (¬ key.data ≤ cand.ip_to_padded.data → lookupIP store ip = .ok none)

/-- **C1**: for every syntactically valid address whose canonical key is
`key`, the lookup returns the attributes of the stored range with the
largest `start ≤ key` whenever that range's inclusive `end ≥ key`, and
`NotFound` both when no range starts at or below `key` and when the
predecessor range ends strictly below `key`. -/
theorem lookupIP_predecessor_containment (store : List GeoRow) (ip key : String)
    (hk : ipToPaddedDecimal ip = .ok key) :
    PredecessorContainmentSpec store ip key := by
  constructor
  · intro hnone
    refine ⟨predRow_eq_none hnone, ?_⟩
    simp only [lookupIP, hk, hnone]
  · intro cand hsome
    obtain ⟨hMem, hLe, hMax⟩ := predRow_eq_some hsome
    refine ⟨hMem, hLe, hMax, ?_, ?_⟩
    · intro hcov
      simp only [lookupIP, hk, hsome]
      rw [if_pos hcov]
    · intro hcov
      simp only [lookupIP, hk, hsome]
      rw [if_neg hcov]

/-- Witness for C1 at the spec's containment example: the sample store
holds `[134744064, 134744319]` and `8.8.8.8` encodes to `134744072`. -/
theorem lookupIP_predecessor_containment_witness :
    ipToPaddedDecimal "8.8.8.8" = .ok (padStart39 (Nat.repr 134744072)) ∧
      PredecessorContainmentSpec sampleStore "8.8.8.8" (padStart39 (Nat.repr 134744072)) :=
  ⟨by decide,
    lookupIP_predecessor_containment sampleStore "8.8.8.8"
      (padStart39 (Nat.repr 134744072)) (by decide)⟩

/-- **C8**: lookup is deterministic — two calls of the lookup with the
same address against the same unchanged store return identical results.
The embedding makes `lookupIP` a pure function of the store and the
address, so sameness of inputs forces sameness of outcomes. -/
theorem lookupIP_deterministic (store : List GeoRow) (ip : String)
    (r₁ r₂ : Except JsError (Option IPGeolocationResult))
    (h₁ : lookupIP store ip = r₁) (h₂ : lookupIP store ip = r₂) : r₁ = r₂ :=
  h₁.symm.trans h₂

/-- Witness for C8: two lookups of `8.8.8.8` against the sample store
both produce the matched sample attributes. -/
theorem lookupIP_deterministic_witness :
    (Except.ok (some (toResult googleRow)) :
        Except JsError (Option IPGeolocationResult)) =
      Except.ok (some (toResult googleRow)) :=
  lookupIP_deterministic sampleStore "8.8.8.8" _ _ (by decide) (by decide)

/-- **C7** (amended): the batch lookup returns exactly one outcome per
input, in input order, each item's outcome being exactly the settled
outcome of looking that address up alone — so no exception escapes and a
malformed address only affects its own slot; however a malformed address
settles to the same `none` a range miss produces, not to a distinct
`InvalidAddress` outcome. -/
theorem lookupIPs_per_item (store : List GeoRow) (ips : List String) :
    (lookupIPs store ips).length = ips.length ∧
      ∀ i : Nat, (lookupIPs store ips)[i]? =
        (ips[i]?).map fun ip => settleNull (lookupIP store ip) := by
  refine ⟨List.length_map _ _, fun i => ?_⟩
  simp [lookupIPs]

/-- **C7** counterexample to the claim as stated: in the spec's batch
example the malformed middle item settles to `none`, which is the very
value an uncovered (NotFound) address settles to — the outcomes are not
distinguishable, even though the single lookup does raise an
invalid-format error for the malformed string. -/
theorem lookupIPs_invalid_indistinguishable :
    lookupIPs sampleStore ["8.8.8.8", "not-an-ip", "1.1.1.1"] =
        [some (toResult googleRow), none, none] ∧
      lookupIP sampleStore "not-an-ip" = .error .invalidFormat ∧
      lookupIP sampleStore "1.1.1.1" = .ok none ∧
      lookupIP sampleStore "9.9.9.9" = .ok none ∧
      lookupIPs sampleStore ["not-an-ip"] = lookupIPs sampleStore ["9.9.9.9"] := by
  decide

/-- **C2**: `encode("::")` is the key of value 0 as claimed, but the
explicit `::1` fast path yields value 281470681743359 while the general
expansion path on `0:0:0:0:0:0:0:1` yields value 1 — the two paths
disagree and `encode("::1")` is not the key of value 1. -/
theorem ipv6_fast_path_disagrees :
    ipToPaddedDecimal "::" = .ok (padStart39 (Nat.repr 0)) ∧
      ipToPaddedDecimal "::1" = .ok (padStart39 (Nat.repr 281470681743359)) ∧
      ipToPaddedDecimal "0:0:0:0:0:0:0:1" = .ok (padStart39 (Nat.repr 1)) ∧
      padStart39 (Nat.repr 281470681743359) ≠ padStart39 (Nat.repr 1) := by
  decide

/-- **C4**: `encode("8.8.8.8")` equals the spec's padded decimal for
`8·2^24 + 8·2^16 + 8·2^8 + 8 = 134744072`, but for a first octet ≥ 128
the 32-bit signed shift makes the computed value negative:
`encode("128.0.0.0")` renders `-2147483648` instead of the claimed
`specIPv4Value 128 0 0 0 = 2147483648`. -/
theorem ipv4_value_signed_shift_bug :
    ipToPaddedDecimal "8.8.8.8" = .ok (padStart39 (Nat.repr (specIPv4Value 8 8 8 8))) ∧
      padStart39 (Nat.repr (specIPv4Value 8 8 8 8)) =
        "000000000000000000000000000000134744072" ∧
      ipToPaddedDecimal "128.0.0.0" = .ok (padStart39 (Int.repr (-2147483648))) ∧
      ipToPaddedDecimal "128.0.0.0" ≠
        .ok (padStart39 (Nat.repr (specIPv4Value 128 0 0 0))) := by
  decide

/-- **C3**: encoding is not order-preserving: `127.255.255.255` has the
smaller integer value but, because `128.0.0.0` encodes through the
signed shift to a string containing `'-'` (which sorts below `'0'`), the
larger-valued address gets the lexicographically smaller key. -/
theorem encode_not_order_preserving :
    specIPv4Value 127 255 255 255 < specIPv4Value 128 0 0 0 ∧
      ipToPaddedDecimal "127.255.255.255" = .ok (padStart39 (Nat.repr 2147483647)) ∧
      ipToPaddedDecimal "128.0.0.0" = .ok (padStart39 (Int.repr (-2147483648))) ∧
      ¬ (padStart39 (Nat.repr 2147483647)).data < (padStart39 (Int.repr (-2147483648))).data ∧
      (padStart39 (Int.repr (-2147483648))).data < (padStart39 (Nat.repr 2147483647)).data := by
  decide

/-- **C6**: for the syntactically valid address `255.0.0.1` the encoder
returns a 39-character string that is not all digits — the signed shift
produces `-16777215`, and the zero padding leaves the minus sign in the
middle of the key. -/
theorem encode_width_digit_violation :
    isIPv4 "255.0.0.1" = true ∧
      ipToPaddedDecimal "255.0.0.1" = .ok (padStart39 (Int.repr (-16777215))) ∧
      (padStart39 (Int.repr (-16777215))).data.length = 39 ∧
      (padStart39 (Int.repr (-16777215))).data.all Char.isDigit = false := by
  decide

/-- **C5**: a string with two `::` occurrences passes `isIPv6` and is
silently converted to a key (JavaScript `split` drops everything after
the second `::`, here yielding `1:0:0:0:0:0:0:2 = 65536^7 + 2`), and a
string with a non-hex group passes `isIPv6` and fails with the `BigInt`
conversion error, not with the invalid-address rejection. -/
theorem double_colon_not_rejected :
    isIPv6 "1::2::3" = true ∧
      ipToPaddedDecimal "1::2::3" = .ok (padStart39 (Nat.repr (65536 ^ 7 + 2))) ∧
      isIPv6 "zz::1" = true ∧
      ipToPaddedDecimal "zz::1" = .error (.bigIntSyntax "0xzz") ∧
      JsError.message (.bigIntSyntax "0xzz") ≠ JsError.message .invalidFormat := by
  decide

/-- **C9**: the IPv4-mapped form `::ffff:1.2.3.4` passes the permissive
IPv6 validation, then the hex-group conversion throws the `BigInt`
syntax error, whose message differs from `'Invalid IP address format'`
and does not contain `'Invalid IP address'` — so the HTTP handlers'
substring classification does not report it as an invalid address, while
the genuine invalid-format error is classified. -/
theorem mapped_ipv4_error_not_classified :
    isIPv6 "::ffff:1.2.3.4" = true ∧
      ipToPaddedDecimal "::ffff:1.2.3.4" = .error (.bigIntSyntax "0x1.2.3.4") ∧
      JsError.message (.bigIntSyntax "0x1.2.3.4") ≠ "Invalid IP address format" ∧
      handlerClassifiesInvalid (.bigIntSyntax "0x1.2.3.4") = false ∧
      handlerClassifiesInvalid .invalidFormat = true := by
  decide

/-! ## The IPv4 grammar on arbitrary dotted quads (claim C10) -/

/-- A list not containing the separator splits to itself alone. -/
theorem splitChar_of_not_mem {c : Char} {l : List Char} (h : c ∉ l) :
    splitChar c l = [l] := by
  induction l with
  | nil => rfl
  | cons x xs ih =>
    have hx : ¬ (x = c) := by
      intro e; subst e; exact h (List.mem_cons_self x xs)
    have hxs : c ∉ xs := fun hm => h (List.mem_cons_of_mem _ hm)
    rw [splitChar, if_neg hx, ih hxs]

/-- Splitting peels off a separator-free prefix before the first
separator occurrence. -/
theorem splitChar_append {c : Char} {l rest : List Char} (h : c ∉ l) :
    splitChar c (l ++ c :: rest) = l :: splitChar c rest := by
  induction l with
  | nil => rw [List.nil_append, splitChar, if_pos rfl]
  | cons x xs ih =>
    have hx : ¬ (x = c) := by
      intro e; subst e; exact h (List.mem_cons_self x xs)
    have hxs : c ∉ xs := fun hm => h (List.mem_cons_of_mem _ hm)
    rw [List.cons_append, splitChar, if_neg hx, ih hxs]

/-- The dotted-quad string built from four part texts. -/
def ipv4String (p₁ p₂ p₃ p₄ : List Char) : String :=
  ⟨p₁ ++ '.' :: (p₂ ++ '.' :: (p₃ ++ '.' :: p₄))⟩

/-- A part text the IPv4 grammar accepts as one octet: 1 to 3 characters,
all decimal digits, decimal value at most 255. -/
def octetText (p : List Char) : Bool :=
  decide (1 ≤ p.length) && decide (p.length ≤ 3) && p.all Char.isDigit &&
    decide (parseDigits p ≤ 255)

/-- A decimal-digit text never contains the dot separator. -/
theorem not_dot_of_digits {p : List Char} (h : p.all Char.isDigit = true) :
    '.' ∉ p := by
  intro hm
  have := List.all_eq_true.mp h '.' hm
  exact absurd this (by decide)

/-- Splitting the dotted quad on `'.'` recovers the four parts. -/
theorem splitChar_quad {p₁ p₂ p₃ p₄ : List Char}
    (h₁ : '.' ∉ p₁) (h₂ : '.' ∉ p₂) (h₃ : '.' ∉ p₃) (h₄ : '.' ∉ p₄) :
    splitChar '.' (ipv4String p₁ p₂ p₃ p₄).data = [p₁, p₂, p₃, p₄] := by
  show splitChar '.' (p₁ ++ '.' :: (p₂ ++ '.' :: (p₃ ++ '.' :: p₄))) = _
  rw [splitChar_append h₁, splitChar_append h₂, splitChar_append h₃,
    splitChar_of_not_mem h₄]

/-- On a dotted quad of four valid octet texts, `isIPv4` accepts and
`ipToPaddedDecimal` produces the key determined by the four decimal part
values alone. -/
theorem ipToPaddedDecimal_quad {p₁ p₂ p₃ p₄ : List Char}
    (h₁ : octetText p₁ = true) (h₂ : octetText p₂ = true)
    (h₃ : octetText p₃ = true) (h₄ : octetText p₄ = true) :
    isIPv4 (ipv4String p₁ p₂ p₃ p₄) = true ∧
      ipToPaddedDecimal (ipv4String p₁ p₂ p₃ p₄) =
        .ok (padStart39 (Int.repr
          (jsShl (parseDigits p₁) 24 + jsShl (parseDigits p₂) 16 +
            jsShl (parseDigits p₃) 8 + (parseDigits p₄ : Int)))) := by
  simp only [octetText, Bool.and_eq_true, decide_eq_true_eq] at h₁ h₂ h₃ h₄
  obtain ⟨⟨⟨h₁a, h₁b⟩, h₁c⟩, h₁d⟩ := h₁
  obtain ⟨⟨⟨h₂a, h₂b⟩, h₂c⟩, h₂d⟩ := h₂
  obtain ⟨⟨⟨h₃a, h₃b⟩, h₃c⟩, h₃d⟩ := h₃
  obtain ⟨⟨⟨h₄a, h₄b⟩, h₄c⟩, h₄d⟩ := h₄
  have hsplit := splitChar_quad (not_dot_of_digits h₁c) (not_dot_of_digits h₂c)
    (not_dot_of_digits h₃c) (not_dot_of_digits h₄c)
  have hiv4 : isIPv4 (ipv4String p₁ p₂ p₃ p₄) = true := by
    simp only [isIPv4, hsplit]
    simp only [List.length_cons, List.length_nil, List.all_cons, List.all_nil,
      Bool.and_eq_true, Bool.and_true, decide_eq_true_eq, beq_iff_eq]
    exact ⟨⟨trivial, ⟨⟨h₁a, h₁b⟩, h₁c⟩, ⟨⟨h₂a, h₂b⟩, h₂c⟩, ⟨⟨h₃a, h₃b⟩, h₃c⟩,
        ⟨h₄a, h₄b⟩, h₄c⟩,
      trivial, h₁d, h₂d, h₃d, h₄d⟩
  refine ⟨hiv4, ?_⟩
  simp only [ipToPaddedDecimal, hiv4, if_true, hsplit, List.map_cons, List.map_nil]
  have hcheck : (([parseDigits p₁, parseDigits p₂, parseDigits p₃,
      parseDigits p₄].length != 4) ||
      [parseDigits p₁, parseDigits p₂, parseDigits p₃, parseDigits p₄].any
        fun part => decide (255 < part)) = false := by
    simp only [List.length_cons, List.length_nil, List.any_cons, List.any_nil,
      Bool.or_false, bne_self_eq_false, Bool.false_or, Bool.or_eq_false_iff,
      decide_eq_false_iff_not, not_lt]
    exact ⟨h₁d, h₂d, h₃d, h₄d⟩
  rw [if_neg (by rw [hcheck]; exact Bool.false_ne_true)]

/-- **C10**: the IPv4 grammar accepts octets with leading zeros — any
dotted quad of four 1–3 digit parts with decimal values at most 255 is
accepted by `isIPv4`, each part is read as decimal, and the canonical
key agrees with that of any other dotted quad with the same part values,
in particular the form without leading zeros. -/
theorem ipv4_leading_zeros_equivalent (p₁ p₂ p₃ p₄ q₁ q₂ q₃ q₄ : List Char)
    (hp₁ : octetText p₁ = true) (hp₂ : octetText p₂ = true)
    (hp₃ : octetText p₃ = true) (hp₄ : octetText p₄ = true)
    (hq₁ : octetText q₁ = true) (hq₂ : octetText q₂ = true)
    (hq₃ : octetText q₃ = true) (hq₄ : octetText q₄ = true)
    (e₁ : parseDigits p₁ = parseDigits q₁) (e₂ : parseDigits p₂ = parseDigits q₂)
    (e₃ : parseDigits p₃ = parseDigits q₃) (e₄ : parseDigits p₄ = parseDigits q₄) :
    isIPv4 (ipv4String p₁ p₂ p₃ p₄) = true ∧
      ipToPaddedDecimal (ipv4String p₁ p₂ p₃ p₄) =
        ipToPaddedDecimal (ipv4String q₁ q₂ q₃ q₄) := by
  obtain ⟨hP, hPenc⟩ := ipToPaddedDecimal_quad hp₁ hp₂ hp₃ hp₄
  obtain ⟨hQ, hQenc⟩ := ipToPaddedDecimal_quad hq₁ hq₂ hq₃ hq₄
  exact ⟨hP, by rw [hPenc, hQenc, e₁, e₂, e₃, e₄]⟩

/-- Witness for C10: `010.001.002.003` is accepted and encodes to the
same canonical key as `10.1.2.3`. -/
theorem ipv4_leading_zeros_equivalent_witness :
    (octetText "010".data = true ∧ octetText "001".data = true ∧
        octetText "002".data = true ∧ octetText "003".data = true ∧
        octetText "10".data = true ∧ octetText "1".data = true ∧
        octetText "2".data = true ∧ octetText "3".data = true ∧
        parseDigits "010".data = parseDigits "10".data ∧
        parseDigits "001".data = parseDigits "1".data ∧
        parseDigits "002".data = parseDigits "2".data ∧
        parseDigits "003".data = parseDigits "3".data) ∧
      isIPv4 (ipv4String "010".data "001".data "002".data "003".data) = true ∧
        ipToPaddedDecimal (ipv4String "010".data "001".data "002".data "003".data) =
          ipToPaddedDecimal (ipv4String "10".data "1".data "2".data "3".data) :=
  ⟨by decide,
    ipv4_leading_zeros_equivalent "010".data "001".data "002".data "003".data
      "10".data "1".data "2".data "3".data
      (by decide) (by decide) (by decide) (by decide)
      (by decide) (by decide) (by decide) (by decide)
      (by decide) (by decide) (by decide) (by decide)⟩

end IP2Location
